import Mathlib

/-!
Verification development for the tennis-odds Telegram bot (src/main.py).

The Python source is shallowly embedded below.  Python floats are modelled
as rationals (all prices in scope are short decimal literals, on which
float comparison agrees with exact rational comparison); the outcome of
datetime.fromisoformat on the commence_time field is modelled as an
Option Int of UTC epoch seconds, none standing for a timestamp whose parse
raises (the bare except in get_top7_markets skips those entries); chat
replies are modelled as an inductive Reply type standing for the literal
message texts; the Telegram send calls are modelled as appended
notification records, since the source wraps the watcher send in a
try/except that only logs, so the delivery outcome never influences state.
-/

/-- Model of Python str.lower over the character list of a string
(ASCII case folding, as used for surnames and bookmaker keys). -/
def lowerList (cs : List Char) : List Char := cs.map Char.toLower

/-- Accumulator for pyWords: builds the whitespace-separated tokens of a
character list, dropping empty tokens, as Python str.split() does. -/
def pyWordsAux : List Char → List Char → List (List Char)
  | [], cur => if cur.isEmpty then [] else [cur.reverse]
  | c :: rest, cur =>
    if c.isWhitespace then
      if cur.isEmpty then pyWordsAux rest [] else cur.reverse :: pyWordsAux rest []
    else pyWordsAux rest (c :: cur)

/-- Model of Python str.split() with no argument: split on whitespace runs,
no empty tokens.  Also models text.strip().split(), which is the same. -/
def pyWords (cs : List Char) : List (List Char) := pyWordsAux cs []

/-- Decimal digit list to natural number. -/
def digitsVal (l : List Char) : Nat := l.foldl (fun a c => a * 10 + (c.toNat - 48)) 0

/-- Unsigned part of the Python float() parser model: digits with an
optional fractional part, as in 3, 3.10, .5 or 5. -/
def pyFloatCore (cs : List Char) : Option ℚ :=
  let ip := cs.takeWhile Char.isDigit
  let rest := cs.dropWhile Char.isDigit
  match rest with
  | [] => if ip.isEmpty then none else some (mkRat (digitsVal ip) 1)
  | '.' :: fp =>
    if fp.all Char.isDigit && (!ip.isEmpty || !fp.isEmpty) then
      some (mkRat (digitsVal ip * 10 ^ fp.length + digitsVal fp) (10 ^ fp.length))
    else none
  | _ => none

/-- Model of Python float(s) on plain signed decimal literals, returning
none when float() raises ValueError.  (Exponent, inf and nan spellings are
out of scope for the watched price strings.) -/
def pyFloat (s : String) : Option ℚ :=
  match s.toList with
  | '-' :: rest => (pyFloatCore rest).map (fun q => -q)
  | '+' :: rest => pyFloatCore rest
  | cs => pyFloatCore cs

/-- Bool test for a contiguous sublist, modelling the Python substring
test (pat in s) used on bookmaker keys. -/
def listContainsSub (pat : List Char) : List Char → Bool
  | [] => pat.isEmpty
  | c :: rest => pat.isPrefixOf (c :: rest) || listContainsSub pat rest

/-- One priced outcome for a participant, from main.py market data:
fields name and price of an entry of outcomes. -/
structure Outcome where
  name : String
  price : ℚ
deriving DecidableEq

/-- One betting market of a bookmaker (only its outcomes matter here). -/
structure BMarket where
  outcomes : List Outcome
deriving DecidableEq

/-- One bookmaker entry: key string and its list of markets. -/
structure Bookmaker where
  key : String
  markets : List BMarket
deriving DecidableEq

/-- One fetched event record.  commence_time holds the UTC epoch seconds
of the parsed ISO timestamp, or none when datetime.fromisoformat raises
(get_top7_markets skips such records via its bare except). -/
structure Market where
  home_team : String
  away_team : String
  commence_time : Option Int
  bookmakers : List Bookmaker
deriving DecidableEq

/-- Model of Python max(bookmakers, key=f): first element attaining the
maximum key, none on an empty list (the code guards that case). -/
def pyMaxBy (f : Bookmaker → Nat) : List Bookmaker → Option Bookmaker
  | [] => none
  | x :: xs => some (xs.foldl (fun best y => if f y > f best then y else best) x)

/-- get_play_count from main.py lines 16-30: number of markets of the
first bookmaker whose lowercased key contains bet365, else of the
bookmaker with the most markets, else 0. -/
def get_play_count (mkt : Market) : Nat :=
  match mkt.bookmakers.find? (fun bk => listContainsSub (("bet365").toList) (lowerList bk.key.toList)) with
  | some bk => bk.markets.length
  | none =>
    match pyMaxBy (fun b => b.markets.length) mkt.bookmakers with
    | some best => best.markets.length
    | none => 0

/-- The sort key comparison of get_top7_markets line 167-170: Python
sorted with key (-get_play_count m, dt), i.e. lexicographic on
(negated play count, start instant). -/
def sortKeyLE (a b : Market × Int) : Bool :=
  decide (-(get_play_count a.1 : Int) < -(get_play_count b.1 : Int)) ||
    (decide (-(get_play_count a.1 : Int) = -(get_play_count b.1 : Int)) && decide (a.2 ≤ b.2))

/-- The window filter of get_top7_markets lines 160-166: keep an event
paired with its parsed start when that start lies in the inclusive window
of now to now plus three days (timedelta of 3 days, 259200 seconds); an
event whose timestamp parse raises is skipped by the bare except. -/
def windowFilter (now : Int) (m : Market) : Option (Market × Int) :=
  match m.commence_time with
  | some dt => if now ≤ dt ∧ dt ≤ now + 3 * 86400 then some (m, dt) else none
  | none => none

/-- The pure selection part of get_top7_markets (main.py lines 155-171),
with the fetched data and the current instant as parameters: keep events
whose parsed start lies in the inclusive window of now to now plus three
days, sort by descending play count with ties by ascending start (stable),
truncate to 7.  Each kept event is paired with its parsed start. -/
def selectTop7 (data : List Market) (now : Int) : List (Market × Int) :=
  ((data.filterMap (windowFilter now)).mergeSort sortKeyLE).take 7

/-- One sport entry of the sports-list response in fetch_markets. -/
structure Sport where
  key : String
deriving DecidableEq

/-- Outcome of the per-sport-key odds request in fetch_markets:
success with data, or the failure cases the code distinguishes
(status 401, status 422, other non-success status raised by
raise_for_status, network-level RequestException). -/
inductive OddsResp where
  | ok (data : List Market)
  | unauthorized
  | unprocessable
  | httpError
  | requestError
deriving DecidableEq

/-- Failure of the initial sports-list request, which fetch_markets does
not catch (its raise_for_status propagates). -/
inductive FetchErr where
  | requestError
deriving DecidableEq

/-- fetch_markets line 121: keys of sports whose lowercased key starts
with tennis, in response order. -/
def tennisKeys (sports : List Sport) : List String :=
  (sports.filter (fun s => (("tennis").toList).isPrefixOf (lowerList s.key.toList))).map (fun s => s.key)

/-- fetch_markets (main.py lines 107-152), with the sports-list response
and the per-key odds responses as parameters.  Every per-key failure kind
is skipped (401 and 422 via continue, other failures via the
RequestException handler); successful data lists are flattened in key
order; an empty tennis key list, and the all-keys-failed case, both
return an empty list successfully after logging. -/
def fetch_markets (sportsResp : Except FetchErr (List Sport)) (odds : String → OddsResp) :
    Except FetchErr (List Market) :=
  match sportsResp with
  | .error e => .error e
  | .ok sports =>
    let keys := tennisKeys sports
    if keys.isEmpty then .ok []
    else .ok (keys.foldl (fun acc sk =>
      match odds sk with
      | .ok data => acc ++ data
      | .unauthorized => acc
      | .unprocessable => acc
      | .httpError => acc
      | .requestError => acc) [])

/-- The data of an odds response, empty for every failure kind.  Used to
state which markets fetch_markets keeps. -/
def oddsData (r : OddsResp) : List Market :=
  match r with
  | .ok data => data
  | _ => []

/-- One stored watch condition: the dict with keys surname and threshold
appended by setthreshold and text_threshold.  Equality is Python dict
equality, used by list.remove in the watcher. -/
structure WatchCond where
  surname : String
  threshold : ℚ
deriving DecidableEq

/-- Chat identity (update.effective_chat.id, an integer). -/
abbrev Chat := Int

/-- The in-memory thresholds mapping, chat id to condition list, as an
association list with distinct keys in insertion order (a Python dict). -/
abbrev Store := List (Chat × List WatchCond)

/-- Dict read thresholds.get(chat, []) (and thresholds[chat] at call
sites where the key is known present). -/
def storeGet (store : Store) (ch : Chat) : List WatchCond :=
  match store.find? (fun p => p.1 == ch) with
  | some p => p.2
  | none => []

/-- Dict membership test. -/
def storeHas (store : Store) (ch : Chat) : Bool := store.any (fun p => p.1 == ch)

/-- Dict write thresholds[chat] = l: replace the entry if the key is
present, else append a new entry. -/
def storeSet (store : Store) (ch : Chat) (l : List WatchCond) : Store :=
  if storeHas store ch then store.map (fun p => if p.1 == ch then (p.1, l) else p)
  else store ++ [(ch, l)]

/-- thresholds.setdefault(chat, []).append(cond). -/
def storeAppend (store : Store) (ch : Chat) (c : WatchCond) : Store :=
  if storeHas store ch then store.map (fun p => if p.1 == ch then (p.1, p.2 ++ [c]) else p)
  else store ++ [(ch, [c])]

/-- Python list.remove: delete the first element equal to the argument;
none models the ValueError raised when no element is equal. -/
def pyListRemove : List WatchCond → WatchCond → Option (List WatchCond)
  | [], _ => none
  | x :: xs, a => if x = a then some xs else (pyListRemove xs a).map (fun l => x :: l)

/-- The last whitespace token of the lowercased participant name, i.e.
the surname key o.name.lower().split()[-1] of the matcher; none models
the IndexError raised on a whitespace-only name. -/
def lastTokenLower (name : String) : Option (List Char) :=
  (pyWords (lowerList name.toList)).getLast?

/-- The matcher test on one outcome: surname token equal to the
condition surname (both case folded) and price at most the threshold.
A tokenless name counts as no match here; the scanning functions raise
on it instead, as the source does. -/
def satPred (surLower : List Char) (thr : ℚ) (o : Outcome) : Bool :=
  match lastTokenLower o.name with
  | some tok => tok == surLower && decide (o.price ≤ thr)
  | none => false

/-- Scan of one outcomes list in source order, returning the first
outcome passing the matcher test, an error for the IndexError on a
whitespace-only name, or none. -/
def scanOutcomes (surLower : List Char) (thr : ℚ) : List Outcome → Except Unit (Option Outcome)
  | [] => .ok none
  | o :: os =>
    match lastTokenLower o.name with
    | none => .error ()
    | some tok =>
      if tok == surLower && decide (o.price ≤ thr) then .ok (some o)
      else scanOutcomes surLower thr os

/-- The outcomes the matcher actually reads from one event:
mkt.bookmakers[0].markets[0].outcomes; none models the IndexError when
the bookmaker or market list is empty. -/
def firstOutcomes (m : Market) : Option (List Outcome) :=
  match m.bookmakers.head? with
  | none => none
  | some bk =>
    match bk.markets.head? with
    | none => none
    | some bm => some bm.outcomes

/-- Event scan of check_single_threshold: events in order, each reduced
to its first-bookmaker-first-market outcomes, stopping at the first
satisfying outcome. -/
def checkScan (surLower : List Char) (thr : ℚ) : List (Market × Int) → Except Unit (Option Outcome)
  | [] => .ok none
  | (m, _) :: rest =>
    match firstOutcomes m with
    | none => .error ()
    | some os =>
      match scanOutcomes surLower thr os with
      | .error e => .error e
      | .ok (some o) => .ok (some o)
      | .ok none => checkScan surLower thr rest

/-- check_single_threshold (main.py lines 173-181) over an already
selected event list: returns the first satisfying outcome (at which the
code sends the alert and returns True), none when no quote satisfies, an
error when the scan raises on malformed data. -/
def check_single_threshold (top7 : List (Market × Int)) (surname : String) (thrPrice : ℚ) :
    Except Unit (Option Outcome) :=
  checkScan (lowerList surname.toList) thrPrice top7

/-- One dispatched watcher alert: chat, condition surname as stored,
triggering price, threshold.  Recorded at the send call; the source
catches and only logs any send failure, so delivery outcome never
affects the store. -/
structure Notif where
  chat : Chat
  surname : String
  price : ℚ
  thr : ℚ
deriving DecidableEq

/-- Result of one watcher cycle body: final store, dispatched alerts in
order, and whether an exception escaped to the cycle-level handler of
main.py line 420 (which logs and proceeds to the next cycle). -/
structure CycleResult where
  store : Store
  notifs : List Notif
  aborted : Bool
deriving DecidableEq

/-- Store plus alerts-so-far, threaded through the cycle. -/
abbrev WState := Store × List Notif

/-- Evaluation of one condition against the event list in the watcher
(main.py lines 406-419).  The break exits only the outcomes loop, so
scanning continues with the next event after a match; the send precedes
the removal; list.remove raising ValueError (condition no longer
present) propagates as an error carrying the state so far. -/
def watchCondGo (ch : Chat) (c : WatchCond) : List (Market × Int) → WState → Except WState WState
  | [], st => .ok st
  | (m, _) :: rest, st =>
    match firstOutcomes m with
    | none => .error st
    | some os =>
      match scanOutcomes (lowerList c.surname.toList) c.threshold os with
      | .error _ => .error st
      | .ok none => watchCondGo ch c rest st
      | .ok (some o) =>
        let notifs2 := st.2 ++ [⟨ch, c.surname, o.price, c.threshold⟩]
        match pyListRemove (storeGet st.1 ch) c with
        | none => .error (st.1, notifs2)
        | some l => watchCondGo ch c rest (storeSet st.1 ch l, notifs2)

/-- Evaluation of one chat snapshot, conditions in order; an error stops
the remaining conditions (the handler sits outside these loops). -/
def watchChat (ch : Chat) (top7 : List (Market × Int)) : List WatchCond → WState → Except WState WState
  | [], st => .ok st
  | c :: cs, st =>
    match watchCondGo ch c top7 st with
    | .error e => .error e
    | .ok st2 => watchChat ch top7 cs st2

/-- Evaluation of all chats of the cycle-start snapshot
list(thresholds.items()), in order. -/
def watchChats (top7 : List (Market × Int)) : List (Chat × List WatchCond) → WState → Except WState WState
  | [], st => .ok st
  | (ch, snap) :: rest, st =>
    match watchChat ch top7 snap st with
    | .error e => .error e
    | .ok st2 => watchChats top7 rest st2

/-- One body iteration of threshold_watcher (main.py lines 382-422) on a
successfully fetched selection: evaluate every snapshot condition; an
escaping exception is caught by the cycle-level handler, which logs it
and keeps the mutations made so far. -/
def evalCycle (top7 : List (Market × Int)) (store : Store) : CycleResult :=
  match watchChats top7 store (store, []) with
  | .ok (s, n) => ⟨s, n, false⟩
  | .error (s, n) => ⟨s, n, true⟩

/-- A sequence of watcher cycles, each on its own fetched selection,
threading the store and concatenating the dispatched alerts. -/
def iterCycles : List (List (Market × Int)) → Store → Store × List Notif
  | [], store => (store, [])
  | t :: ts, store =>
    let r := evalCycle t store
    let rest := iterCycles ts r.store
    (rest.1, r.notifs ++ rest.2)

/-- Whether an event carries a quote satisfying the condition, in the
part of the event the code reads (first bookmaker, first market). -/
def marketSat (c : WatchCond) (p : Market × Int) : Bool :=
  match firstOutcomes p.1 with
  | some os => os.any (satPred (lowerList c.surname.toList) c.threshold)
  | none => false

/-- Whether an outcome name yields a surname token (no IndexError). -/
def outcomeTokOk (o : Outcome) : Bool := (lastTokenLower o.name).isSome

/-- Well-formed selection: every event has a first bookmaker with a
first market, and every outcome name yields a surname token, so no
evaluation step raises. -/
def cycleWFb (t : List (Market × Int)) : Bool :=
  t.all (fun p =>
    match firstOutcomes p.1 with
    | some os => os.all outcomeTokOk
    | none => false)

/-- The user-visible replies of the threshold handlers, standing for the
literal message texts of main.py. -/
inductive Reply where
  | usage
  | invalidPrice
  | thresholdSet (surname : String) (price : ℚ)
  | gotIt
  | alert (surname : String) (price : ℚ) (thr : ℚ)
deriving DecidableEq

/-- The /setthreshold handler (main.py lines 265-292), with the selection
used by its immediate check as a parameter: validate arity, parse the
price with float(), append the condition, then immediately evaluate it;
when already satisfied, alert and drop every condition of the chat whose
surname matches case-insensitively.  An error models the uncaught
exception when the immediate check hits malformed data. -/
def setthreshold (ch : Chat) (args : List String) (top7 : List (Market × Int)) (store : Store) :
    Except Unit (Store × List Reply) :=
  match args with
  | [surname, priceStr] =>
    match pyFloat priceStr with
    | none => .ok (store, [.invalidPrice])
    | some price =>
      let store1 := storeAppend store ch ⟨surname, price⟩
      match check_single_threshold top7 surname price with
      | .error _ => .error ()
      | .ok none => .ok (store1, [.thresholdSet surname price, .gotIt])
      | .ok (some o) =>
        let l2 := (storeGet store1 ch).filter
          (fun thr => !(lowerList thr.surname.toList == lowerList surname.toList))
        .ok (storeSet store1 ch l2, [.thresholdSet surname price, .gotIt, .alert surname o.price price])
  | _ => .ok (store, [.usage])

/-- The plain-text Surname Price handler (main.py lines 355-378): same
flow as setthreshold but silent on arity or parse failure. -/
def text_threshold (ch : Chat) (msgText : String) (top7 : List (Market × Int)) (store : Store) :
    Except Unit (Store × List Reply) :=
  match pyWords msgText.toList with
  | [w1, w2] =>
    let surname := String.mk w1
    match pyFloat (String.mk w2) with
    | none => .ok (store, [])
    | some price =>
      let store1 := storeAppend store ch ⟨surname, price⟩
      match check_single_threshold top7 surname price with
      | .error _ => .error ()
      | .ok none => .ok (store1, [.thresholdSet surname price, .gotIt])
      | .ok (some o) =>
        let l2 := (storeGet store1 ch).filter
          (fun thr => !(lowerList thr.surname.toList == lowerList surname.toList))
        .ok (storeSet store1 ch l2, [.thresholdSet surname price, .gotIt, .alert surname o.price price])
  | _ => .ok (store, [])

/-- A Python dict key as relevant to the thresholds mapping: the live
process uses int chat ids; json.load produces string keys. -/
inductive PyKey where
  | int (n : Int)
  | str (s : String)
deriving DecidableEq

/-- How json.dump writes a dict key: an int key becomes its decimal
string; a string key is kept. -/
def keyRepr : PyKey → String
  | .int n => toString n
  | .str s => s

/-- The thresholds mapping with its key type visible, for the
persistence round trip. -/
abbrev PersistStore := List (PyKey × List WatchCond)

/-- save_thresholds (main.py lines 62-67): json.dump of the mapping.
JSON object keys are strings, so every key is written via keyRepr; the
condition dicts serialize losslessly (surname string, threshold number)
and are modelled as kept unchanged. -/
def save_thresholds (store : PersistStore) : List (String × List WatchCond) :=
  store.map (fun p => (keyRepr p.1, p.2))

/-- load_thresholds (main.py lines 52-60) on a readable file: json.load
returns the mapping with string keys; condition dicts are restored
exactly. -/
def load_thresholds (saved : List (String × List WatchCond)) : PersistStore :=
  saved.map (fun p => (PyKey.str p.1, p.2))

deriving instance DecidableEq for Except

/-! Concrete fixtures used by counterexamples and witnesses. -/

/-- A priced quote for the participant Taylor Fritz. -/
def fritzQuote (p : ℚ) : Outcome := ⟨"Taylor Fritz", p⟩

/-- An event whose single quote source has a single market with the given
outcomes. -/
def oneSourceMarket (os : List Outcome) : Market :=
  ⟨"Taylor Fritz", "Novak Djokovic", some 100, [⟨"pinnacle", [⟨os⟩]⟩]⟩

/-- An event with an empty bookmaker list: reading bookmakers[0] raises. -/
def emptyBookmakersMarket : Market := ⟨"Taylor Fritz", "Novak Djokovic", some 100, []⟩

/-! Helper lemmas. -/

/-- The sort key comparison in propositional form. -/
theorem sortKeyLE_iff (a b : Market × Int) :
    sortKeyLE a b = true ↔
      (-(get_play_count a.1 : Int) < -(get_play_count b.1 : Int) ∨
        (-(get_play_count a.1 : Int) = -(get_play_count b.1 : Int) ∧ a.2 ≤ b.2)) := by
  simp [sortKeyLE]

/-- The sort key comparison is transitive. -/
theorem sortKeyLE_trans (a b c : Market × Int)
    (hab : sortKeyLE a b = true) (hbc : sortKeyLE b c = true) : sortKeyLE a c = true := by
  rw [sortKeyLE_iff] at hab hbc ⊢
  omega

/-- The sort key comparison is total. -/
theorem sortKeyLE_total (a b : Market × Int) : (sortKeyLE a b || sortKeyLE b a) = true := by
  rw [Bool.or_eq_true, sortKeyLE_iff, sortKeyLE_iff]
  omega

/-- What membership in the window filter output means. -/
theorem windowFilter_some (now : Int) (m : Market) (p : Market × Int)
    (h : windowFilter now m = some p) :
    p.1 = m ∧ m.commence_time = some p.2 ∧ now ≤ p.2 ∧ p.2 ≤ now + 3 * 86400 := by
  unfold windowFilter at h
  cases hct : m.commence_time with
  | none => rw [hct] at h; cases h
  | some dt =>
    rw [hct] at h
    dsimp only at h
    by_cases hw : now ≤ dt ∧ dt ≤ now + 3 * 86400
    · rw [if_pos hw] at h
      cases h
      exact ⟨rfl, rfl, hw.1, hw.2⟩
    · rw [if_neg hw] at h
      cases h

/-- C4: selectTop7 returns at most 7 events, and every returned event
start lies in the inclusive window from now to now plus three days. -/
theorem selectTop7_window_bound (data : List Market) (now : Int) :
    (selectTop7 data now).length ≤ 7 ∧
      ∀ p ∈ selectTop7 data now,
        p.1.commence_time = some p.2 ∧ now ≤ p.2 ∧ p.2 ≤ now + 3 * 86400 := by
  constructor
  · unfold selectTop7
    exact List.length_take_le 7 _
  · intro p hp
    unfold selectTop7 at hp
    have h1 := List.mem_of_mem_take hp
    have h2 := (List.mergeSort_perm _ sortKeyLE).mem_iff.mp h1
    rw [List.mem_filterMap] at h2
    obtain ⟨m, _, hf⟩ := h2
    obtain ⟨he, hct, h3, h4⟩ := windowFilter_some now m p hf
    exact ⟨he ▸ hct, h3, h4⟩

/-- C5: selectTop7 is a deterministic (pure) function of its inputs, and
for any two selected events A before B, either the play-count score of A
is strictly greater than that of B, or the scores are equal and the start
of A is at most the start of B. -/
theorem selectTop7_deterministic_and_sorted (data : List Market) (now : Int) :
    selectTop7 data now = selectTop7 data now ∧
      (selectTop7 data now).Pairwise (fun a b =>
        get_play_count a.1 > get_play_count b.1 ∨
          (get_play_count a.1 = get_play_count b.1 ∧ a.2 ≤ b.2)) := by
  refine ⟨rfl, ?_⟩
  have hs := @List.sorted_mergeSort (Market × Int) sortKeyLE
    (fun a b c hab hbc => sortKeyLE_trans a b c hab hbc)
    (fun a b => sortKeyLE_total a b)
    (data.filterMap (windowFilter now))
  have hp : (selectTop7 data now).Pairwise (fun a b => sortKeyLE a b = true) := by
    unfold selectTop7
    exact List.Pairwise.sublist (List.take_sublist 7 _) hs
  exact hp.imp (fun h => by rw [sortKeyLE_iff] at h; omega)

/-- Folding the per-key branch dispatch of fetch_markets equals
flattening the data of the successful keys. -/
theorem fetch_foldl_eq (odds : String → OddsResp) (keys : List String) (acc : List Market) :
    keys.foldl (fun acc sk =>
      match odds sk with
      | .ok data => acc ++ data
      | .unauthorized => acc
      | .unprocessable => acc
      | .httpError => acc
      | .requestError => acc) acc = acc ++ keys.flatMap (fun k => oddsData (odds k)) := by
  induction keys generalizing acc with
  | nil => simp
  | cons k ks ih =>
    simp only [List.foldl_cons, List.flatMap_cons]
    cases hk : odds k <;> simp [hk, oddsData, ih]

/-- C7 counterexample: with one tennis sub-catalogue whose odds request
fails at the network level (so every sub-catalogue failed), fetch_markets
returns successfully with an empty list; it does not fail with the
UpstreamUnavailable kind the claim requires. -/
theorem fetch_markets_all_fail_counterexample :
    fetch_markets (Except.ok [⟨"tennis_atp"⟩]) (fun _ => OddsResp.requestError) = Except.ok [] ∧
      fetch_markets (Except.ok [⟨"tennis_atp"⟩]) (fun _ => OddsResp.requestError) ≠
        Except.error FetchErr.requestError :=
  ⟨by decide, by decide⟩

/-- C7 amended: a failure on any sub-catalogue is skipped, and the
aggregate fetch never fails once the sports-list request succeeded: it
returns exactly the flattened data of the successful sub-catalogues,
which is the empty list when all of them fail. -/
theorem fetch_markets_skips_failures (sports : List Sport) (odds : String → OddsResp) :
    fetch_markets (Except.ok sports) odds =
      Except.ok ((tennisKeys sports).flatMap (fun k => oddsData (odds k))) := by
  unfold fetch_markets
  dsimp only
  cases hk : (tennisKeys sports).isEmpty
  · rw [if_neg (by simp [hk])]
    rw [fetch_foldl_eq]
    simp
  · rw [if_pos (by simp [hk])]
    rw [List.isEmpty_iff.mp hk]
    rfl

/-- C6: saving the thresholds mapping under an integer chat key and
loading it back yields the mapping keyed by the decimal string of that
chat id, which is not equal to the original mapping. -/
theorem thresholds_roundtrip_changes_key :
    load_thresholds (save_thresholds [(PyKey.int 123, [⟨"Fritz", mkRat 31 10⟩])]) =
        [(PyKey.str ("123"), [⟨"Fritz", mkRat 31 10⟩])] ∧
      load_thresholds (save_thresholds [(PyKey.int 123, [⟨"Fritz", mkRat 31 10⟩])]) ≠
        [(PyKey.int 123, [⟨"Fritz", mkRat 31 10⟩])] :=
  ⟨by decide, by decide⟩

/-- C9 counterexample: the argument -5 parses as a float, so
/setthreshold Fritz -5 stores a condition with the non-positive
threshold -5 and replies with the success messages, not a usage
rejection. -/
theorem setthreshold_accepts_nonpositive :
    setthreshold 1 [("Fritz"), ("-5")] [] [] =
        Except.ok ([(1, [⟨"Fritz", mkRat (-5) 1⟩])],
          [Reply.thresholdSet ("Fritz") (mkRat (-5) 1), Reply.gotIt]) ∧
      mkRat (-5) 1 ≤ 0 :=
  ⟨by decide, by decide⟩

/-- C9 amended: an argument on which float() raises is rejected with the
invalid-price message by /setthreshold, leaving the store unchanged, and
is silently ignored by the plain-text form; parsed values are accepted
with no positivity check. -/
theorem threshold_parse_failure_rejected (ch : Chat) (top7 : List (Market × Int)) (store : Store)
    (surname pstr msg : String) (w1 w2 : List Char)
    (h : pyFloat pstr = none) (hw : pyWords msg.toList = [w1, w2])
    (h2 : pyFloat (String.mk w2) = none) :
    setthreshold ch [surname, pstr] top7 store = Except.ok (store, [Reply.invalidPrice]) ∧
      text_threshold ch msg top7 store = Except.ok (store, []) := by
  have hw2 : pyWords msg.data = [w1, w2] := hw
  constructor
  · simp [setthreshold, h]
  · simp [text_threshold, hw2, h2]

/-- Witness for the amended C9 theorem at a concrete unparsable price. -/
theorem threshold_parse_failure_rejected_witness :
    pyFloat ("abc") = none ∧
      (setthreshold 1 [("Fritz"), ("abc")] [] [] = Except.ok ([], [Reply.invalidPrice]) ∧
        text_threshold 1 ("Fritz abc") [] [] = Except.ok ([], [])) :=
  ⟨by decide,
    threshold_parse_failure_rejected 1 [] [] ("Fritz") ("abc") ("Fritz abc")
      (("Fritz").toList) (("abc").toList) (by decide) (by decide) (by decide)⟩

/-- An event with two quote sources: the first has no satisfying quote,
the second quotes Taylor Fritz at 2. -/
def twoSourceMarket : Market :=
  ⟨"Taylor Fritz", "Novak Djokovic", some 100,
   [⟨"pinnacle", [⟨[⟨"Novak Djokovic", mkRat 52 10⟩]⟩]⟩,
    ⟨"bet365uk", [⟨[fritzQuote 2]⟩]⟩]⟩

/-- C2 counterexample: among all quote sources of the event, exactly the
second source holds a quote satisfying the condition Fritz at 3, yet the
matcher returns none, because it only reads the first source (and its
first market). -/
theorem matcher_ignores_second_source :
    check_single_threshold [(twoSourceMarket, 100)] ("Fritz") 3 = Except.ok none ∧
      twoSourceMarket.bookmakers.map
          (fun bk => bk.markets.map (fun bm => bm.outcomes.filter
            (satPred (lowerList (("Fritz").toList)) 3))) =
        [[[]], [[fritzQuote 2]]] :=
  ⟨by decide, by decide⟩

/-- On an outcomes list whose names all yield surname tokens, the matcher
scan returns exactly the first outcome passing the matcher test. -/
theorem scanOutcomes_eq_find (sur : List Char) (thr : ℚ) (os : List Outcome)
    (h : os.all outcomeTokOk = true) :
    scanOutcomes sur thr os = Except.ok (os.find? (satPred sur thr)) := by
  induction os with
  | nil => rfl
  | cons o os ih =>
    rw [List.all_cons, Bool.and_eq_true] at h
    obtain ⟨ho, hos⟩ := h
    unfold outcomeTokOk at ho
    rw [Option.isSome_iff_exists] at ho
    obtain ⟨tok, htok⟩ := ho
    unfold scanOutcomes
    rw [htok]
    dsimp only
    by_cases hsat : (tok == sur && decide (o.price ≤ thr)) = true
    · rw [if_pos hsat]
      have hps : satPred sur thr o = true := by unfold satPred; rw [htok]; exact hsat
      rw [List.find?_cons_of_pos _ hps]
    · rw [if_neg hsat]
      have hps : satPred sur thr o = false := by
        unfold satPred
        rw [htok]
        simpa using hsat
      rw [List.find?_cons_of_neg _ (by simp [hps])]
      exact ih hos

/-- The events-in-order, first-source-only, first-satisfying-quote scan
that the amended C2 claim describes. -/
def firstSourceScan (top7 : List (Market × Int)) (surname : String) (thr : ℚ) : Option Outcome :=
  top7.findSome? (fun p =>
    match firstOutcomes p.1 with
    | some os => os.find? (satPred (lowerList surname.toList) thr)
    | none => none)

/-- checkScan agrees with the first-source-only findSome? scan on
well-formed selections. -/
theorem checkScan_eq_findSome (sur : List Char) (thr : ℚ) (top7 : List (Market × Int)) :
    cycleWFb top7 = true →
      checkScan sur thr top7 = Except.ok (top7.findSome? (fun p =>
        match firstOutcomes p.1 with
        | some os => os.find? (satPred sur thr)
        | none => none)) := by
  induction top7 with
  | nil => intro _; rfl
  | cons p rest ih =>
    intro h
    rw [cycleWFb, List.all_cons, Bool.and_eq_true] at h
    obtain ⟨hp, hrest⟩ := h
    obtain ⟨m, dt⟩ := p
    cases hfo : firstOutcomes m with
    | none => rw [hfo] at hp; cases hp
    | some os =>
      rw [hfo] at hp
      unfold checkScan
      rw [hfo]
      dsimp only
      rw [scanOutcomes_eq_find _ _ _ hp, List.findSome?_cons]
      cases hfind : os.find? (satPred sur thr) with
      | some o => simp [hfo, hfind]
      | none => simp [hfo, hfind]; exact ih hrest

/-- C2 amended: for every well-formed selection (every event has a first
source with a first market and tokenizable names), the matcher scans
events in order but, within each event, reads only the first quote
source's first market; it returns the first quote there (event order,
then quote order) whose case-folded surname matches and whose value is
at most the threshold, stopping at the first such quote, and none when no
quote of a first source satisfies. -/
theorem check_single_first_source_only (top7 : List (Market × Int)) (surname : String) (thr : ℚ)
    (h : cycleWFb top7 = true) :
    check_single_threshold top7 surname thr = Except.ok (firstSourceScan top7 surname thr) := by
  unfold check_single_threshold firstSourceScan
  exact checkScan_eq_findSome (lowerList surname.toList) thr top7 h

/-- Witness for the amended C2 theorem on a concrete selection. -/
theorem check_single_first_source_only_witness :
    cycleWFb [(oneSourceMarket [fritzQuote 2], 100)] = true ∧
      check_single_threshold [(oneSourceMarket [fritzQuote 2], 100)] ("Fritz") 3 =
        Except.ok (firstSourceScan [(oneSourceMarket [fritzQuote 2], 100)] ("Fritz") 3) :=
  ⟨by decide, check_single_first_source_only [(oneSourceMarket [fritzQuote 2], 100)] ("Fritz") 3
    (by decide)⟩

/-- A cycle selection in which two distinct events both quote Taylor
Fritz at 2 in their first source. -/
def doubleHitTop7 : List (Market × Int) :=
  [(oneSourceMarket [fritzQuote 2], 100), (oneSourceMarket [fritzQuote 2], 200)]

/-- C1 at the failing input: a single condition Fritz at threshold 3 and
one cycle whose selection holds two satisfying events.  The watcher
dispatches TWO notifications for the one condition (the break after a
match only exits the outcomes loop, so the next event fires again), the
condition is removed at the first match, and the duplicate list.remove
raises ValueError, aborting the rest of the cycle (aborted = true). -/
theorem watcher_double_notification :
    evalCycle doubleHitTop7 [(1, [⟨"Fritz", 3⟩])] =
        ⟨[(1, [])], [⟨1, ("Fritz"), 2, 3⟩, ⟨1, ("Fritz"), 2, 3⟩], true⟩ ∧
      (evalCycle doubleHitTop7 [(1, [⟨"Fritz", 3⟩])]).notifs.length = 2 :=
  ⟨by decide, by decide⟩

/-- The duplicate-condition store of the C3 scenario: Fritz at 3.10
created first, Fritz at 2.50 created second. -/
def fritzDupStore : Store := [(1, [⟨"Fritz", mkRat 31 10⟩, ⟨"Fritz", mkRat 25 10⟩])]

/-- A selection holding one event that quotes Taylor Fritz at 2.80. -/
def fritz28Top7 : List (Market × Int) := [(oneSourceMarket [fritzQuote (mkRat 28 10)], 100)]

/-- C3 counterexample: on a quote of 2.80, the watcher removes the FIRST
condition (threshold 3.10, which 2.80 satisfies) and leaves the second
(threshold 2.50, not satisfied) live, the opposite of the claim. -/
theorem duplicate_removal_counterexample :
    (evalCycle fritz28Top7 fritzDupStore).store = [(1, [⟨"Fritz", mkRat 25 10⟩])] ∧
      (evalCycle fritz28Top7 fritzDupStore).store ≠ [(1, [⟨"Fritz", mkRat 31 10⟩])] :=
  ⟨by decide, by decide⟩

/-- C3 amended: in the concrete scenario the cycle fires once on the
first condition (2.80 is at most 3.10), removes exactly that first
instance and leaves the 2.50 condition live; and in general the removal
primitive used by the watch loop deletes exactly one instance equal to
the matched condition and no sibling with a different surname or
threshold. -/
theorem duplicate_removal_amended (l l2 : List WatchCond) (c d : WatchCond)
    (h : pyListRemove l c = some l2) (hd : d ≠ c) :
    evalCycle fritz28Top7 fritzDupStore =
        ⟨[(1, [⟨"Fritz", mkRat 25 10⟩])], [⟨1, ("Fritz"), mkRat 28 10, mkRat 31 10⟩], false⟩ ∧
      l2.length + 1 = l.length ∧ l2.count c + 1 = l.count c ∧ l2.count d = l.count d := by
  refine ⟨by decide, ?_⟩
  induction l generalizing l2 with
  | nil => cases h
  | cons x xs ih =>
    unfold pyListRemove at h
    by_cases hx : x = c
    · rw [if_pos hx] at h
      cases h
      subst hx
      refine ⟨rfl, by simp [List.count_cons], by simp [List.count_cons, hd]⟩
    · rw [if_neg hx] at h
      cases hrem : pyListRemove xs c with
      | none => rw [hrem] at h; cases h
      | some ys =>
        rw [hrem] at h
        cases h
        obtain ⟨h1, h2, h3⟩ := ih ys hrem
        refine ⟨by simp [h1], ?_, ?_⟩
        · simp only [List.count_cons]
          omega
        · simp only [List.count_cons]
          omega

/-- Witness for the amended C3 theorem at concrete lists. -/
theorem duplicate_removal_amended_witness :
    pyListRemove [⟨"Fritz", 3⟩, ⟨"Nadal", 2⟩] ⟨"Fritz", 3⟩ = some [⟨"Nadal", 2⟩] ∧
      (evalCycle fritz28Top7 fritzDupStore =
          ⟨[(1, [⟨"Fritz", mkRat 25 10⟩])], [⟨1, ("Fritz"), mkRat 28 10, mkRat 31 10⟩], false⟩ ∧
        ([⟨"Nadal", 2⟩] : List WatchCond).length + 1 =
          ([⟨"Fritz", 3⟩, ⟨"Nadal", 2⟩] : List WatchCond).length ∧
        ([⟨"Nadal", 2⟩] : List WatchCond).count (⟨"Fritz", 3⟩ : WatchCond) + 1 =
          ([⟨"Fritz", 3⟩, ⟨"Nadal", 2⟩] : List WatchCond).count (⟨"Fritz", 3⟩ : WatchCond) ∧
        ([⟨"Nadal", 2⟩] : List WatchCond).count (⟨"Nadal", 2⟩ : WatchCond) =
          ([⟨"Fritz", 3⟩, ⟨"Nadal", 2⟩] : List WatchCond).count (⟨"Nadal", 2⟩ : WatchCond)) :=
  ⟨by decide,
    duplicate_removal_amended [⟨"Fritz", 3⟩, ⟨"Nadal", 2⟩] [⟨"Nadal", 2⟩]
      ⟨"Fritz", 3⟩ ⟨"Nadal", 2⟩ (by decide) (by decide)⟩

/-- A selection whose first event has no bookmakers (reading
bookmakers[0] raises) followed by an event quoting Taylor Fritz at 2. -/
def badFirstTop7 : List (Market × Int) :=
  [(emptyBookmakersMarket, 100), (oneSourceMarket [fritzQuote 2], 200)]

/-- A store with two chats: chat 1 watches Alcaraz, chat 2 watches Fritz
(whose condition the second event of badFirstTop7 satisfies). -/
def twoChatStore : Store := [(1, [⟨"Alcaraz", 2⟩]), (2, [⟨"Fritz", 3⟩])]

/-- C8 counterexample: the first condition's evaluation raises on the
malformed first event; the cycle aborts with the store unchanged and no
notifications, even though chat 2's condition is satisfied by a
well-formed event of the same selection - so the remaining conditions of
the snapshot were NOT evaluated, contrary to the claim. -/
theorem cycle_error_counterexample :
    evalCycle badFirstTop7 twoChatStore = ⟨twoChatStore, [], true⟩ ∧
      marketSat ⟨"Fritz", 3⟩ (oneSourceMarket [fritzQuote 2], 200) = true :=
  ⟨by decide, by decide⟩

/-- C8 amended: a failure while evaluating a condition (here, malformed
event data at the very first market) is caught and logged only at the
whole-cycle level: the cycle aborts with the store unchanged and no
notifications, skipping every remaining condition of the snapshot, and
the loop then proceeds to the following cycles as if the failed cycle
had not run. -/
theorem cycle_error_aborts_rest (ch : Chat) (c : WatchCond) (cs : List WatchCond)
    (more : Store) (m : Market) (dt : Int) (tr : List (Market × Int))
    (rest : List (List (Market × Int)))
    (hm : firstOutcomes m = none) :
    evalCycle ((m, dt) :: tr) ((ch, c :: cs) :: more) =
        ⟨(ch, c :: cs) :: more, [], true⟩ ∧
      iterCycles (((m, dt) :: tr) :: rest) ((ch, c :: cs) :: more) =
        iterCycles rest ((ch, c :: cs) :: more) := by
  have h1 : evalCycle ((m, dt) :: tr) ((ch, c :: cs) :: more) =
      ⟨(ch, c :: cs) :: more, [], true⟩ := by
    simp [evalCycle, watchChats, watchChat, watchCondGo, hm]
  exact ⟨h1, by simp [iterCycles, h1]⟩

/-- Witness for the amended C8 theorem on the concrete two-chat store. -/
theorem cycle_error_aborts_rest_witness :
    firstOutcomes emptyBookmakersMarket = none ∧
      (evalCycle badFirstTop7 twoChatStore = ⟨twoChatStore, [], true⟩ ∧
        iterCycles [badFirstTop7, [(oneSourceMarket [fritzQuote 2], 200)]] twoChatStore =
          iterCycles [[(oneSourceMarket [fritzQuote 2], 200)]] twoChatStore) :=
  ⟨by decide,
    cycle_error_aborts_rest 1 ⟨"Alcaraz", 2⟩ [] [(2, [⟨"Fritz", 3⟩])]
      emptyBookmakersMarket 100 [(oneSourceMarket [fritzQuote 2], 200)]
      [[(oneSourceMarket [fritzQuote 2], 200)]] (by decide)⟩

/-- Reading a chat absent from the store yields the empty list. -/
theorem storeGet_not_has (ch : Chat) :
    ∀ store : Store, storeHas store ch = false → storeGet store ch = [] := by
  intro store
  induction store with
  | nil => intro _; rfl
  | cons p ps ih =>
    intro h
    unfold storeHas at h
    rw [List.any_cons, Bool.or_eq_false_iff] at h
    obtain ⟨h1, h2⟩ := h
    unfold storeGet
    rw [List.find?_cons_of_neg _ (by simp [h1])]
    exact ih h2

/-- Updating the entry of a present chat via map and reading it back
yields the updated list. -/
theorem storeGet_map_update (ch : Chat) (g : List WatchCond → List WatchCond) :
    ∀ store : Store, storeHas store ch = true →
      storeGet (store.map (fun p => if p.1 == ch then (p.1, g p.2) else p)) ch =
        g (storeGet store ch) := by
  intro store
  induction store with
  | nil => intro h; simp [storeHas] at h
  | cons p ps ih =>
    intro h
    by_cases hp : p.1 = ch
    · simp [storeGet, hp]
    · have hps : storeHas ps ch = true := by
        unfold storeHas at h
        rw [List.any_cons, Bool.or_eq_true] at h
        rcases h with h1 | h1
        · exact absurd (by simpa using h1) hp
        · exact h1
      have hih := ih hps
      simp only [List.map_cons]
      rw [if_neg (by simp [hp])]
      unfold storeGet at hih ⊢
      rw [List.find?_cons_of_neg _ (by simp [hp]), List.find?_cons_of_neg _ (by simp [hp])]
      exact hih

/-- Appending a fresh entry for an absent chat and reading it back
yields that entry's list. -/
theorem storeGet_append_new (ch : Chat) (l : List WatchCond) :
    ∀ store : Store, storeHas store ch = false →
      storeGet (store ++ [(ch, l)]) ch = l := by
  intro store
  induction store with
  | nil => intro _; simp [storeGet]
  | cons p ps ih =>
    intro h
    unfold storeHas at h
    rw [List.any_cons, Bool.or_eq_false_iff] at h
    obtain ⟨h1, h2⟩ := h
    unfold storeGet
    rw [List.cons_append, List.find?_cons_of_neg _ (by simp [h1])]
    exact ih h2

/-- Reading back a dict write: storeGet after storeSet at the same chat
gives the written list. -/
theorem storeGet_storeSet (store : Store) (ch : Chat) (l : List WatchCond) :
    storeGet (storeSet store ch l) ch = l := by
  unfold storeSet
  cases hhas : storeHas store ch
  · rw [if_neg (by simp [hhas])]
    exact storeGet_append_new ch l store hhas
  · rw [if_pos (by simp [hhas])]
    exact storeGet_map_update ch (fun _ => l) store hhas

/-- Reading back a setdefault-append: the chat's list gains exactly the
appended condition at its end. -/
theorem storeGet_storeAppend (store : Store) (ch : Chat) (c : WatchCond) :
    storeGet (storeAppend store ch c) ch = storeGet store ch ++ [c] := by
  unfold storeAppend
  cases hhas : storeHas store ch
  · rw [if_neg (by simp [hhas])]
    rw [storeGet_append_new ch [c] store hhas, storeGet_not_has ch store hhas]
    rfl
  · rw [if_pos (by simp [hhas])]
    exact storeGet_map_update ch (fun x => x ++ [c]) store hhas

/-- The store produced when an added condition is found already
satisfied by the immediate check: the chat's list is rewritten to its
conditions whose case-folded surname differs from the added one. -/
def afterImmediateFire (store : Store) (ch : Chat) (surname : String) (price : ℚ) : Store :=
  storeSet (storeAppend store ch ⟨surname, price⟩) ch
    ((storeGet (storeAppend store ch ⟨surname, price⟩) ch).filter
      (fun thr => !(lowerList thr.surname.toList == lowerList surname.toList)))

/-- C10: adding a condition via /setthreshold or the plain-text form
immediately evaluates that one condition against a freshly fetched
selection; when it is already satisfied by some quote, the alert reply
is issued at once (after the set-confirmation replies) and the chat's
stored list becomes its previous conditions filtered of EVERY
case-insensitive surname match - prior same-surname conditions and the
newly added instance alike are removed. -/
theorem add_condition_immediate_fire (ch : Chat) (store : Store)
    (surname pstr msg : String) (w1 w2 : List Char) (price : ℚ)
    (top7 : List (Market × Int)) (o : Outcome)
    (hp : pyFloat pstr = some price)
    (hc : check_single_threshold top7 surname price = Except.ok (some o))
    (hw : pyWords msg.toList = [w1, w2])
    (h1 : String.mk w1 = surname)
    (h2 : pyFloat (String.mk w2) = some price) :
    setthreshold ch [surname, pstr] top7 store =
        Except.ok (afterImmediateFire store ch surname price,
          [Reply.thresholdSet surname price, Reply.gotIt, Reply.alert surname o.price price]) ∧
      text_threshold ch msg top7 store = setthreshold ch [surname, pstr] top7 store ∧
      storeGet (afterImmediateFire store ch surname price) ch =
        (storeGet store ch).filter
          (fun thr => !(lowerList thr.surname.toList == lowerList surname.toList)) := by
  refine ⟨?_, ?_, ?_⟩
  · simp [setthreshold, hp, hc, afterImmediateFire]
  · have hw2 : pyWords msg.data = [w1, w2] := hw
    subst h1
    simp [text_threshold, setthreshold, hw2, h2, hp, hc]
  · unfold afterImmediateFire
    rw [storeGet_storeSet, storeGet_storeAppend, List.filter_append]
    simp

/-- Witness for the C10 theorem: the chat already watches FRITZ at 3.5
and Nadal at 2; adding Fritz at 2.9 with a selection quoting Taylor
Fritz at 2.8 fires at once and removes both Fritz conditions, keeping
Nadal. -/
theorem add_condition_immediate_fire_witness :
    pyFloat ("2.9") = some (mkRat 29 10) ∧
      check_single_threshold fritz28Top7 ("Fritz") (mkRat 29 10) =
        Except.ok (some (fritzQuote (mkRat 28 10))) ∧
      (setthreshold 1 [("Fritz"), ("2.9")] fritz28Top7
            [(1, [⟨"FRITZ", mkRat 35 10⟩, ⟨"Nadal", 2⟩])] =
          Except.ok (afterImmediateFire [(1, [⟨"FRITZ", mkRat 35 10⟩, ⟨"Nadal", 2⟩])] 1
              ("Fritz") (mkRat 29 10),
            [Reply.thresholdSet ("Fritz") (mkRat 29 10), Reply.gotIt,
              Reply.alert ("Fritz") (mkRat 28 10) (mkRat 29 10)]) ∧
        text_threshold 1 ("Fritz 2.9") fritz28Top7 [(1, [⟨"FRITZ", mkRat 35 10⟩, ⟨"Nadal", 2⟩])] =
          setthreshold 1 [("Fritz"), ("2.9")] fritz28Top7
            [(1, [⟨"FRITZ", mkRat 35 10⟩, ⟨"Nadal", 2⟩])] ∧
        storeGet (afterImmediateFire [(1, [⟨"FRITZ", mkRat 35 10⟩, ⟨"Nadal", 2⟩])] 1
            ("Fritz") (mkRat 29 10)) 1 =
          ([⟨"FRITZ", mkRat 35 10⟩, ⟨"Nadal", 2⟩] : List WatchCond).filter
            (fun thr => !(lowerList thr.surname.toList == lowerList (("Fritz").toList)))) :=
  ⟨by decide, by decide,
    add_condition_immediate_fire 1 [(1, [⟨"FRITZ", mkRat 35 10⟩, ⟨"Nadal", 2⟩])]
      ("Fritz") ("2.9") ("Fritz 2.9") (("Fritz").toList) (("2.9").toList) (mkRat 29 10)
      fritz28Top7 (fritzQuote (mkRat 28 10))
      (by decide) (by decide) (by decide) (by decide) (by decide)⟩
